import Mathlib

/-!
# Verification of the indradb value model (`src/models.rs`, `lib/src/errors.rs`)

Shallow embedding of the repository's validated value model:

* `ValidationError` — the error enumeration from `lib/src/errors.rs`.
* `F32` — a model of IEEE-754 single-precision values adequate for the order
  comparisons the code performs: finite values are rationals (every finite
  `f32` is a rational, and `<`/`>` on finite floats agrees with the rational
  order), plus the two infinities and `nan`, which compares false against
  everything, exactly as in IEEE-754.
* `Type_` (`Type` in the source; renamed because `Type` is a Lean keyword),
  `Weight`, `Vertex`, `Edge` with their constructors and the handwritten
  `PartialEq` implementations from `src/models.rs`.
* A model of the serde-derived wire encoding used for round-trip claims.

The abstract `Id` bound of the source (`I: Id`, requiring comparability and
serializability) is modelled by a type parameter `I` with `DecidableEq`.
-/

/-- The `ValidationError` enumeration of `lib/src/errors.rs`. -/
inductive ValidationError where
  | InvalidValue : ValidationError
  | ValueTooLong : ValidationError
  | CannotIncrementUuid : ValidationError
deriving DecidableEq, Repr

/-- Modelled from the spec: `src/models.rs` constructs its errors through a
constructor `ValidationError::new(message)` whose defining module is not among
the provided sources; only the variant enumeration in `lib/src/errors.rs` is.
Per the spec's taxonomy — "`InvalidValue` (malformed type string, or any
semantically out-of-domain value), `ValueTooLong` (type string exceeds length
bound)" — the too-long message used by `Type::new` maps to `ValueTooLong`, and
every other construction-time message ("Invalid type", "Weight out of range")
maps to `InvalidValue`. -/
def ValidationError.new (msg : String) : ValidationError :=
  if msg = "Type is too long" then ValidationError.ValueTooLong
  else ValidationError.InvalidValue

/-- Model of an `f32` value adequate for the order comparisons of the source:
a finite rational, one of the two infinities, or `nan`. -/
inductive F32 where
  | nan : F32
  | neg_inf : F32
  | pos_inf : F32
  | fin : ℚ → F32
deriving DecidableEq, Repr

/-- IEEE-754 `<` on the `F32` model: `nan` compares false against everything;
otherwise the order is `neg_inf < fin _ < pos_inf` with the rational order on
finite values. Rust's `w > x` is `x < w` with the same semantics. -/
def F32.lt : F32 → F32 → Bool
  | F32.nan, _ => false
  | _, F32.nan => false
  | F32.neg_inf, F32.neg_inf => false
  | F32.neg_inf, _ => true
  | _, F32.neg_inf => false
  | F32.pos_inf, _ => false
  | _, F32.pos_inf => true
  | F32.fin a, F32.fin b => decide (a < b)

/-- IEEE-754 `<=` on the `F32` model: `nan` compares false against
everything; otherwise the reflexive closure of `F32.lt`. -/
def F32.le : F32 → F32 → Bool
  | F32.nan, _ => false
  | _, F32.nan => false
  | F32.neg_inf, _ => true
  | _, F32.neg_inf => false
  | _, F32.pos_inf => true
  | F32.pos_inf, _ => false
  | F32.fin a, F32.fin b => decide (a ≤ b)

/-- `pub struct Type(pub String)` from `src/models.rs` (named `Type` there;
`Type` is a Lean keyword). Derives `Eq`/`PartialEq`, i.e. compared by its
underlying string value. -/
structure Type_ where
  val : String
deriving DecidableEq, Repr

/-- UTF-8 byte count of one scalar value, as laid down by the UTF-8 encoding;
models how each `char` contributes to Rust's `str::len`. -/
def rustCharLen (c : Char) : Nat :=
  if c.toNat ≤ 0x7F then 1
  else if c.toNat ≤ 0x7FF then 2
  else if c.toNat ≤ 0xFFFF then 3
  else 4

/-- Model of Rust's `str::len` (the UTF-8 byte length of the string), used by
the `t.len() > 255` check in `Type::new`. -/
def utf8Len (s : String) : Nat := (s.data.map rustCharLen).sum

/-- One character of the class `[a-zA-Z0-9-_]` of `TYPE_VALIDATOR`
(`src/models.rs` line 8): a letter (codes 97–122 and 65–90), a digit
(48–57), a dash (45) or an underscore (95). -/
def isTypeChar (c : Char) : Bool :=
  (97 ≤ c.toNat && c.toNat ≤ 122) || (65 ≤ c.toNat && c.toNat ≤ 90) ||
  (48 ≤ c.toNat && c.toNat ≤ 57) || c.toNat == 45 || c.toNat == 95

/-- `TYPE_VALIDATOR.is_match(t)` for the anchored regex `^[a-zA-Z0-9-_]+$`:
true exactly when the string is non-empty and every character belongs to the
class (the `+` demands at least one character; the anchors make `is_match`
a whole-string match). -/
def typeValidatorMatch (s : String) : Bool :=
  !s.isEmpty && s.data.all isTypeChar

namespace Type_

/-- `Type::new` from `src/models.rs`: rejects strings longer than 255 bytes
with the too-long error, then strings not matching `TYPE_VALIDATOR` with the
invalid-type error, and otherwise wraps the string unchanged. -/
def new (t : String) : Except ValidationError Type_ :=
  if utf8Len t > 255 then Except.error (ValidationError.new ("Type is too long"))
  else if !typeValidatorMatch t then Except.error (ValidationError.new ("Invalid type"))
  else Except.ok (Type_.mk t)

/-- `impl FromStr for Type` from `src/models.rs`:
`Ok(Self::new(s.to_string())?)` — delegate to `Type::new` and re-wrap the
result (`s.to_string()` copies the borrowed string verbatim). -/
def from_str (s : String) : Except ValidationError Type_ :=
  match Type_.new s with
  | Except.error e => Except.error e
  | Except.ok v => Except.ok v

end Type_

/-- `pub struct Weight(pub f32)` from `src/models.rs`. The single field is
public in the source. -/
structure Weight where
  val : F32
deriving DecidableEq, Repr

namespace Weight

/-- `Weight::new` from `src/models.rs`: errors when `w < -1.0 || w > 1.0`
(IEEE comparisons), otherwise wraps the value unchanged. -/
def new (w : F32) : Except ValidationError Weight :=
  if F32.lt w (F32.fin (-1)) || F32.lt (F32.fin 1) w then
    Except.error (ValidationError.new ("Weight out of range"))
  else Except.ok (Weight.mk w)

end Weight

/-- `pub struct Vertex<I: Id>` from `src/models.rs`: an id plus a type
(the latter serialized under the name "type"). -/
structure Vertex (I : Type) where
  id : I
  t : Type_

namespace Vertex

/-- `Vertex::new` from `src/models.rs`: plain field assembly, no validation,
no failure path. -/
def new {I : Type} (id : I) (t : Type_) : Vertex I := Vertex.mk id t

/-- The handwritten `impl<I: Id> PartialEq for Vertex<I>`:
`self.id == other.id` — the type field is not consulted. -/
def eq {I : Type} [DecidableEq I] (a b : Vertex I) : Bool :=
  decide (a.id = b.id)

end Vertex

/-- Model of chrono's `DateTime<UTC>`: an instant carried at full precision,
as an integer tick count. The value-model code never inspects its internals. -/
structure DateTime where
  ticks : Int
deriving DecidableEq, Repr

/-- `pub struct Edge<I: Id>` from `src/models.rs`: outbound id, type
(serialized as "type"), inbound id, weight, last-update instant. -/
structure Edge (I : Type) where
  outbound_id : I
  t : Type_
  inbound_id : I
  weight : Weight
  update_datetime : DateTime

namespace Edge

/-- `Edge::new` from `src/models.rs`: plain field assembly, no validation,
no failure path. -/
def new {I : Type} (outbound_id : I) (t : Type_) (inbound_id : I)
    (weight : Weight) (update_datetime : DateTime) : Edge I :=
  Edge.mk outbound_id t inbound_id weight update_datetime

/-- The handwritten `impl<I: Id> PartialEq for Edge<I>`:
`self.outbound_id == other.outbound_id && self.t == other.t &&
self.inbound_id == other.inbound_id` — weight and timestamp not consulted. -/
def eq {I : Type} [DecidableEq I] (a b : Edge I) : Bool :=
  decide (a.outbound_id = b.outbound_id) && decide (a.t = b.t) &&
  decide (a.inbound_id = b.inbound_id)

end Edge

/-! ## Wire encoding

Modelled from the spec: the serde data format actually wired to these types
(the concrete `Serializer`/`Deserializer`) is not among the provided sources;
`src/models.rs` only carries the `#[derive(Serialize, Deserialize)]`
attributes and the `#[serde(rename="type")]` field renames. Per the spec
(§6), the wire payload is "a self-describing structured payload
(field-tagged)" that "must be unambiguous and round-trip lossless for all
Value Model types, including the UTC timestamp on edges (must preserve full
precision on round-trip)". `Payload` is that payload; the encoders follow the
derived shape of each struct (newtype structs encode their single field,
record structs encode their named fields, `t` renamed to "type"), and the
decoders are the derived, validation-free field readers. -/

/-- A self-describing wire payload value: strings, integers (ids and
timestamp ticks), single-precision values (carried losslessly, as a binary
format carries the raw 4 bytes), and field-tagged records. -/
inductive Payload where
  | pstr : String → Payload
  | pint : Int → Payload
  | pf32 : F32 → Payload
  | pobj : List (String × Payload) → Payload

/-- Derived encoding of the newtype `Type`: its single string field. -/
def Type_.serialize (t : Type_) : Payload := Payload.pstr t.val

/-- Derived decoding of the newtype `Type`: reads the string back with no
re-validation (the derive performs none). -/
def Type_.deserialize : Payload → Option Type_
  | Payload.pstr s => some (Type_.mk s)
  | _ => none

/-- Derived encoding of the newtype `Weight`: its single `f32` field. -/
def Weight.serialize (w : Weight) : Payload := Payload.pf32 w.val

/-- Derived decoding of the newtype `Weight`: reads the value back with no
range check (the derive performs none). -/
def Weight.deserialize : Payload → Option Weight
  | Payload.pf32 w => some (Weight.mk w)
  | _ => none

/-- Derived encoding of chrono's `DateTime<UTC>`: the instant at full
precision. -/
def DateTime.serialize (d : DateTime) : Payload := Payload.pint d.ticks

/-- Derived decoding of chrono's `DateTime<UTC>`. -/
def DateTime.deserialize : Payload → Option DateTime
  | Payload.pint n => some (DateTime.mk n)
  | _ => none

/-- Derived encoding of `Vertex<I>`: fields "id" and "type" (the `t` field is
renamed by `#[serde(rename="type")]`). The id encoder is a parameter, as the
source is generic over `I: Id` with `Id: Serialize + Deserialize`. -/
def Vertex.serialize {I : Type} (encI : I → Payload) (v : Vertex I) : Payload :=
  Payload.pobj [("id", encI v.id), ("type", v.t.serialize)]

/-- Derived decoding of `Vertex<I>`. -/
def Vertex.deserialize {I : Type} (decI : Payload → Option I) :
    Payload → Option (Vertex I)
  | Payload.pobj [("id", pid), ("type", pt)] => do
      let i ← decI pid
      let t ← Type_.deserialize pt
      some (Vertex.mk i t)
  | _ => none

/-- Derived encoding of `Edge<I>`: the five fields in declaration order, `t`
renamed to "type". -/
def Edge.serialize {I : Type} (encI : I → Payload) (e : Edge I) : Payload :=
  Payload.pobj [("outbound_id", encI e.outbound_id), ("type", e.t.serialize),
    ("inbound_id", encI e.inbound_id), ("weight", e.weight.serialize),
    ("update_datetime", e.update_datetime.serialize)]

/-- Derived decoding of `Edge<I>`. -/
def Edge.deserialize {I : Type} (decI : Payload → Option I) :
    Payload → Option (Edge I)
  | Payload.pobj [("outbound_id", po), ("type", pt), ("inbound_id", pi),
      ("weight", pw), ("update_datetime", pd)] => do
      let o ← decI po
      let t ← Type_.deserialize pt
      let i ← decI pi
      let w ← Weight.deserialize pw
      let d ← DateTime.deserialize pd
      some (Edge.mk o t i w d)
  | _ => none

/-- The lossless integer-id codec used to instantiate the generic round-trip
statements on a concrete `Id` type. -/
def payloadToInt : Payload → Option Int
  | Payload.pint n => some n
  | _ => none

/-! ## Helper lemmas -/

lemma rustCharLen_pos (c : Char) : 1 ≤ rustCharLen c := by
  unfold rustCharLen
  split <;> [omega; split <;> [omega; split <;> omega]]

lemma rustCharLen_of_isTypeChar {c : Char} (h : isTypeChar c = true) :
    rustCharLen c = 1 := by
  unfold isTypeChar at h
  simp only [Bool.or_eq_true, Bool.and_eq_true, decide_eq_true_eq, beq_iff_eq] at h
  have hle : c.toNat ≤ 0x7F := by omega
  unfold rustCharLen
  simp [hle]

lemma sum_map_rustCharLen {l : List Char} (h : ∀ c ∈ l, isTypeChar c = true) :
    (l.map rustCharLen).sum = l.length := by
  induction l with
  | nil => simp
  | cons c cs ih =>
    simp only [List.map_cons, List.sum_cons, List.length_cons]
    rw [rustCharLen_of_isTypeChar (h c (by simp)),
      ih (fun x hx => h x (by simp [hx]))]
    omega

lemma length_le_sum_map_rustCharLen (l : List Char) :
    l.length ≤ (l.map rustCharLen).sum := by
  induction l with
  | nil => simp
  | cons c cs ih =>
    simp only [List.map_cons, List.sum_cons, List.length_cons]
    have := rustCharLen_pos c
    omega

lemma string_length_eq_data (s : String) : s.length = s.data.length := rfl

lemma utf8Len_of_match {s : String} (h : typeValidatorMatch s = true) :
    utf8Len s = s.length := by
  unfold typeValidatorMatch at h
  simp only [Bool.and_eq_true, List.all_eq_true] at h
  rw [utf8Len, string_length_eq_data]
  exact sum_map_rustCharLen h.2

lemma length_le_utf8Len (s : String) : s.length ≤ utf8Len s := by
  rw [utf8Len, string_length_eq_data]
  exact length_le_sum_map_rustCharLen s.data

/-- `Type::new` with the spec-modelled messages resolved to their
`ValidationError` variants. -/
lemma type_new_eq (t : String) :
    Type_.new t =
      (if 255 < utf8Len t then Except.error ValidationError.ValueTooLong
       else if !typeValidatorMatch t then Except.error ValidationError.InvalidValue
       else Except.ok (Type_.mk t)) := by
  unfold Type_.new
  by_cases h1 : 255 < utf8Len t
  · rw [if_pos h1, if_pos h1]
    rfl
  · rw [if_neg h1, if_neg h1]
    by_cases h2 : (!typeValidatorMatch t) = true
    · rw [if_pos h2, if_pos h2]
      rfl
    · rw [if_neg h2, if_neg h2]

/-! ## Claim theorems -/

/-- **C1.** For every string `t`, `Type::new(t)` succeeds if and only if `t`
is at most 255 characters long and matches the allowed character set of
`TYPE_VALIDATOR` (`^[a-zA-Z0-9-_]+$`: one or more letters, digits, dashes or
underscores — in particular the empty string does not match), and on success
the returned `Type`'s underlying string equals the input. (The source checks
`t.len() > 255` in bytes, but a string matching the validator is all-ASCII,
so its byte length and character length coincide.) -/
theorem type_new_spec (t : String) :
    ((Type_.new t).isOk = true ↔ (t.length ≤ 255 ∧ typeValidatorMatch t = true)) ∧
    ∀ r, Type_.new t = Except.ok r → r.val = t := by
  rw [type_new_eq t]
  by_cases h1 : 255 < utf8Len t
  · rw [if_pos h1]
    refine ⟨⟨fun h => absurd h (by simp [Except.isOk, Except.toBool]), ?_⟩, fun r hr => by cases hr⟩
    rintro ⟨hlen, hm⟩
    have := utf8Len_of_match hm
    omega
  · rw [if_neg h1]
    by_cases h2 : typeValidatorMatch t
    · rw [if_neg (by simp [h2])]
      refine ⟨⟨fun _ => ⟨?_, h2⟩, fun _ => by simp [Except.isOk, Except.toBool]⟩, fun r hr => ?_⟩
      · have := utf8Len_of_match h2
        omega
      · cases hr
        rfl
    · rw [if_pos (by simp [h2])]
      refine ⟨⟨fun h => absurd h (by simp [Except.isOk, Except.toBool]), ?_⟩, fun r hr => by cases hr⟩
      rintro ⟨-, hm⟩
      exact absurd hm h2

/-- Witness for C1 at the concrete valid string "user". -/
theorem type_new_spec_witness :
    (Type_.new ("user")).isOk = true ∧ (Type_.mk ("user")).val = "user" :=
  ⟨(type_new_spec ("user")).1.mpr (by decide),
   (type_new_spec ("user")).2 (Type_.mk ("user")) (by rfl)⟩

/-- **C3.** Every validation failure of the value-model constructors is one
of the variants `InvalidValue`, `ValueTooLong`, `CannotIncrementUuid`; a
type string over the length bound fails with `ValueTooLong`, a malformed
type string fails with `InvalidValue`, and an out-of-range weight fails with
`InvalidValue` (variant attribution per the spec-modelled
`ValidationError.new`). -/
theorem validation_error_variants :
    (∀ t : String, 255 < utf8Len t →
      Type_.new t = Except.error ValidationError.ValueTooLong) ∧
    (∀ t : String, utf8Len t ≤ 255 → typeValidatorMatch t = false →
      Type_.new t = Except.error ValidationError.InvalidValue) ∧
    (∀ w : F32, F32.lt w (F32.fin (-1)) = true ∨ F32.lt (F32.fin 1) w = true →
      Weight.new w = Except.error ValidationError.InvalidValue) ∧
    (∀ e : ValidationError, e = ValidationError.InvalidValue ∨
      e = ValidationError.ValueTooLong ∨ e = ValidationError.CannotIncrementUuid) := by
  refine ⟨fun t h1 => ?_, fun t h1 h2 => ?_, fun w hw => ?_, fun e => ?_⟩
  · rw [type_new_eq t, if_pos h1]
  · rw [type_new_eq t, if_neg (by omega), if_pos (by simp [h2])]
  · have hcond : (F32.lt w (F32.fin (-1)) || F32.lt (F32.fin 1) w) = true := by
      rcases hw with h | h <;> simp [h]
    unfold Weight.new
    rw [if_pos hcond]
    rfl
  · cases e <;> simp

set_option maxRecDepth 4096 in
/-- Witness for C3: a 256-byte string fails with `ValueTooLong`, a malformed
short string with `InvalidValue`, the weight 2 with `InvalidValue`. -/
theorem validation_error_variants_witness :
    Type_.new (String.mk (List.replicate 256 (Char.ofNat 33))) =
      Except.error ValidationError.ValueTooLong ∧
    Type_.new ("bad type") = Except.error ValidationError.InvalidValue ∧
    Weight.new (F32.fin 2) = Except.error ValidationError.InvalidValue :=
  ⟨validation_error_variants.1 _ (by decide),
   validation_error_variants.2.1 ("bad type") (by decide) (by decide),
   validation_error_variants.2.2.1 (F32.fin 2) (Or.inr (by decide))⟩

/-- **C8.** When a string both exceeds the 255-length bound and fails the
character-set check, `Type::new` reports the too-long error: the length
check comes first in the source, so the length violation wins. -/
theorem type_new_too_long_wins (t : String) (h1 : 255 < t.length)
    (_h2 : typeValidatorMatch t = false) :
    Type_.new t = Except.error ValidationError.ValueTooLong := by
  rw [type_new_eq t, if_pos (lt_of_lt_of_le h1 (length_le_utf8Len t))]

set_option maxRecDepth 4096 in
/-- Witness for C8: 256 copies of the disallowed character code 33. -/
theorem type_new_too_long_wins_witness :
    Type_.new (String.mk (List.replicate 256 (Char.ofNat 33))) =
      Except.error ValidationError.ValueTooLong :=
  type_new_too_long_wins _ (by decide) (by decide)

/-- **C10.** For every string `s`, the `FromStr` implementation for `Type`
returns exactly the same result as `Type::new(s.to_string())`. -/
theorem type_from_str_eq_new (s : String) : Type_.from_str s = Type_.new s := by
  unfold Type_.from_str
  cases Type_.new s <;> rfl

/-- Witness for C10 at the concrete string "user". -/
theorem type_from_str_eq_new_witness :
    Type_.from_str ("user") = Type_.new ("user") :=
  type_from_str_eq_new ("user")

/-- **C2, counterexample.** At `w = NaN`, `Weight::new` returns `Ok` (both
IEEE comparisons `w < -1.0` and `w > 1.0` are false on NaN), yet NaN does
not satisfy `-1.0 ≤ w ≤ 1.0`; so "Ok iff -1.0 ≤ w ≤ 1.0, for every possible
f32 input" fails at NaN. -/
theorem weight_new_nan_counterexample :
    Weight.new F32.nan = Except.ok (Weight.mk F32.nan) ∧
    (F32.le (F32.fin (-1)) F32.nan && F32.le F32.nan (F32.fin 1)) = false :=
  ⟨rfl, rfl⟩

/-- **C2, amended.** `Weight::new(w)` returns `Ok` iff neither `w < -1.0`
nor `w > 1.0` holds under IEEE comparison; equivalently, for every non-NaN
`w`, it returns `Ok` iff `-1.0 ≤ w ≤ 1.0`, and it also returns `Ok` on NaN. -/
theorem weight_new_ok_iff (w : F32) :
    ((Weight.new w).isOk = true ↔
      (F32.lt w (F32.fin (-1)) = false ∧ F32.lt (F32.fin 1) w = false)) ∧
    (w ≠ F32.nan → ((Weight.new w).isOk = true ↔
      (F32.le (F32.fin (-1)) w = true ∧ F32.le w (F32.fin 1) = true))) := by
  have hmain : (Weight.new w).isOk = true ↔
      (F32.lt w (F32.fin (-1)) = false ∧ F32.lt (F32.fin 1) w = false) := by
    unfold Weight.new
    by_cases h : (F32.lt w (F32.fin (-1)) || F32.lt (F32.fin 1) w) = true
    · rw [if_pos h]
      simp only [Bool.or_eq_true] at h
      constructor
      · intro hk
        exact absurd hk (by simp [Except.isOk, Except.toBool])
      · rintro ⟨h1, h2⟩
        rcases h with h | h
        · rw [h1] at h
          cases h
        · rw [h2] at h
          cases h
    · rw [if_neg h]
      simp only [Bool.or_eq_true, not_or, Bool.not_eq_true] at h
      simp [Except.isOk, Except.toBool, h.1, h.2]
  refine ⟨hmain, fun hnan => hmain.trans ?_⟩
  cases w with
  | nan => exact absurd rfl hnan
  | neg_inf => simp [F32.lt, F32.le]
  | pos_inf => simp [F32.lt, F32.le]
  | fin q =>
    simp only [F32.lt, F32.le, decide_eq_false_iff_not, decide_eq_true_eq, not_lt]

/-- Witness for C2's amended theorem at the in-range value 0 and the
out-of-range value 2. -/
theorem weight_new_ok_iff_witness :
    (Weight.new (F32.fin 0)).isOk = true ∧ (Weight.new (F32.fin 2)).isOk = false := by
  constructor
  · exact (weight_new_ok_iff (F32.fin 0)).1.mpr (by decide)
  · have h := (weight_new_ok_iff (F32.fin 2)).1
    by_cases hk : (Weight.new (F32.fin 2)).isOk = true
    · have := h.mp hk
      revert this
      decide
    · simp only [Bool.not_eq_true] at hk
      exact hk

/-- **C4.** Two vertices compare equal under the handwritten `PartialEq`
exactly when their ids are equal; the type field plays no role. -/
theorem vertex_eq_iff {I : Type} [DecidableEq I] (a b : Vertex I) :
    Vertex.eq a b = true ↔ a.id = b.id := by
  simp [Vertex.eq]

/-- Witness for C4: same id, different types — still equal. -/
theorem vertex_eq_iff_witness :
    Vertex.eq (Vertex.mk (1 : Int) (Type_.mk ("user")))
      (Vertex.mk (1 : Int) (Type_.mk ("movie"))) = true :=
  (vertex_eq_iff (Vertex.mk (1 : Int) (Type_.mk ("user")))
    (Vertex.mk (1 : Int) (Type_.mk ("movie")))).mpr rfl

/-- **C5.** Two edges compare equal under the handwritten `PartialEq`
exactly when outbound id, type and inbound id all agree; weight and
update timestamp play no role. -/
theorem edge_eq_iff {I : Type} [DecidableEq I] (a b : Edge I) :
    Edge.eq a b = true ↔
      (a.outbound_id = b.outbound_id ∧ a.t = b.t ∧ a.inbound_id = b.inbound_id) := by
  simp [Edge.eq, and_assoc]

/-- Witness for C5: same identity triple, different weight and timestamp —
still equal. -/
theorem edge_eq_iff_witness :
    Edge.eq
      (Edge.mk (1 : Int) (Type_.mk ("likes")) 2 (Weight.mk (F32.fin 1)) (DateTime.mk 10))
      (Edge.mk (1 : Int) (Type_.mk ("likes")) 2 (Weight.mk (F32.fin 0)) (DateTime.mk 99))
      = true :=
  (edge_eq_iff
    (Edge.mk (1 : Int) (Type_.mk ("likes")) 2 (Weight.mk (F32.fin 1)) (DateTime.mk 10))
    (Edge.mk (1 : Int) (Type_.mk ("likes")) 2 (Weight.mk (F32.fin 0)) (DateTime.mk 99))).mpr
    ⟨rfl, rfl, rfl⟩

/-- **C6, counterexample.** The invariant "every publicly obtainable Weight
lies in [-1.0, 1.0]" fails: the serde-derived deserializer of the newtype
`Weight` (derived in `src/models.rs`; it performs no range check, and the
field is `pub`) yields a `Weight` with value 2, which is not ≤ 1. -/
theorem weight_invariant_counterexample :
    Weight.deserialize (Payload.pf32 (F32.fin 2)) = some (Weight.mk (F32.fin 2)) ∧
    F32.le (F32.fin 2) (F32.fin 1) = false :=
  ⟨rfl, by decide⟩

/-- **C6, amended.** Every `Weight` produced by `Weight::new` satisfies the
code's own guard: it compares neither below -1.0 nor above 1.0 (for non-NaN
values this is membership in [-1.0, 1.0]); but out-of-range Weights remain
publicly obtainable through the `pub` field and the derived, validation-free
deserializer, and NaN passes `Weight::new`. -/
theorem weight_new_range (w : F32) (v : Weight) (h : Weight.new w = Except.ok v) :
    F32.lt v.val (F32.fin (-1)) = false ∧ F32.lt (F32.fin 1) v.val = false := by
  unfold Weight.new at h
  by_cases hc : (F32.lt w (F32.fin (-1)) || F32.lt (F32.fin 1) w) = true
  · rw [if_pos hc] at h
    cases h
  · rw [if_neg hc] at h
    cases h
    simp only [Bool.or_eq_true, not_or, Bool.not_eq_true] at hc
    exact ⟨hc.1, hc.2⟩

/-- Witness for C6's amended theorem at `w = 0`. -/
theorem weight_new_range_witness :
    F32.lt (Weight.mk (F32.fin 0)).val (F32.fin (-1)) = false ∧
    F32.lt (F32.fin 1) (Weight.mk (F32.fin 0)).val = false :=
  weight_new_range (F32.fin 0) (Weight.mk (F32.fin 0)) rfl

/-- **C9.** `Vertex::new` and `Edge::new` are total: they are plain
functions into `Vertex`/`Edge` (no `Result` wrapper, no id validation), and
the returned value's fields are exactly the arguments supplied. -/
theorem vertex_edge_new_fields {I : Type} (id o i : I) (t : Type_) (w : Weight)
    (d : DateTime) :
    (Vertex.new id t).id = id ∧ (Vertex.new id t).t = t ∧
    (Edge.new o t i w d).outbound_id = o ∧ (Edge.new o t i w d).t = t ∧
    (Edge.new o t i w d).inbound_id = i ∧ (Edge.new o t i w d).weight = w ∧
    (Edge.new o t i w d).update_datetime = d :=
  ⟨rfl, rfl, rfl, rfl, rfl, rfl, rfl⟩

/-- Witness for C9 at concrete arguments. -/
theorem vertex_edge_new_fields_witness :
    (Vertex.new (7 : Int) (Type_.mk ("user"))).id = 7 ∧
    (Edge.new (1 : Int) (Type_.mk ("likes")) 2 (Weight.mk (F32.fin 0))
      (DateTime.mk 5)).inbound_id = 2 :=
  ⟨(vertex_edge_new_fields (7 : Int) 1 2 (Type_.mk ("user")) (Weight.mk (F32.fin 0))
      (DateTime.mk 5)).1,
   (vertex_edge_new_fields (7 : Int) 1 2 (Type_.mk ("likes")) (Weight.mk (F32.fin 0))
      (DateTime.mk 5)).2.2.2.2.1⟩

/-- **C7.** Serializing any value-model instance and deserializing the
result yields a value equal to the original under that type's identity rule
(`Type`/`Weight` by value, `Vertex` by id, `Edge` by its identity triple),
with the edge's update timestamp preserved at full precision — for every id
codec that is itself lossless. In fact the decoded value is structurally
equal to the original, which is stronger than identity-rule equality. -/
theorem value_model_round_trip {I : Type} [DecidableEq I]
    (encI : I → Payload) (decI : Payload → Option I)
    (h : ∀ x, decI (encI x) = some x) :
    (∀ t : Type_, Type_.deserialize (Type_.serialize t) = some t) ∧
    (∀ w : Weight, Weight.deserialize (Weight.serialize w) = some w) ∧
    (∀ v : Vertex I, (Vertex.deserialize decI (Vertex.serialize encI v)).map
      (fun u => Vertex.eq u v) = some true) ∧
    (∀ e : Edge I, (Edge.deserialize decI (Edge.serialize encI e)).map
      (fun u => Edge.eq u e && decide (u.update_datetime = e.update_datetime))
      = some true) := by
  refine ⟨fun t => rfl, fun w => rfl, fun v => ?_, fun e => ?_⟩
  · simp [Vertex.serialize, Vertex.deserialize, Type_.serialize, Type_.deserialize,
      h, Vertex.eq]
  · simp [Edge.serialize, Edge.deserialize, Type_.serialize, Type_.deserialize,
      Weight.serialize, Weight.deserialize, DateTime.serialize, DateTime.deserialize,
      h, Edge.eq]

/-- Witness for C7: the lossless integer-id codec, a concrete vertex and a
concrete edge. -/
theorem value_model_round_trip_witness :
    (Vertex.deserialize payloadToInt (Vertex.serialize Payload.pint
      (Vertex.mk (3 : Int) (Type_.mk ("user"))))).map
      (fun u => Vertex.eq u (Vertex.mk (3 : Int) (Type_.mk ("user")))) = some true ∧
    (Edge.deserialize payloadToInt (Edge.serialize Payload.pint
      (Edge.mk (1 : Int) (Type_.mk ("likes")) 2 (Weight.mk (F32.fin (4 / 5)))
        (DateTime.mk 1700000000)))).map
      (fun u => Edge.eq u (Edge.mk (1 : Int) (Type_.mk ("likes")) 2
          (Weight.mk (F32.fin (4 / 5))) (DateTime.mk 1700000000)) &&
        decide (u.update_datetime = DateTime.mk 1700000000)) = some true :=
  ⟨(value_model_round_trip Payload.pint payloadToInt (fun _ => rfl)).2.2.1
      (Vertex.mk (3 : Int) (Type_.mk ("user"))),
   (value_model_round_trip Payload.pint payloadToInt (fun _ => rfl)).2.2.2
      (Edge.mk (1 : Int) (Type_.mk ("likes")) 2 (Weight.mk (F32.fin (4 / 5)))
        (DateTime.mk 1700000000))⟩
